import Mathlib

/-!
Verification development for ifo2mkv (src/ifo2mkv.cpp).

The file shallowly embeds the chapter-extraction core of the program:
the BCD decoder, the frame-to-millisecond timestamp converter, the
per-cell playback walk of get_chapters_for_title, and the title-selection
logic of main. Machine integers are modelled as Nat with explicit
reduction modulo 4294967296 where the C code computes in 32-bit
unsigned arithmetic, and the final cast to int32_t is modelled by
two-complement reinterpretation into Int.
-/

namespace Ifo2Mkv

set_option maxRecDepth 16384

/-- BCD decoder, from_bcd (ifo2mkv.cpp lines 199-202). -/
def from_bcd (val : Nat) : Nat :=
  (((val &&& 0xf0) >>> 4) * 10) + (val &&& 0x0f)

/-- Reinterpretation of a 32-bit unsigned value as int32_t
(the static_cast at line 196). -/
def int32_of_uint32 (n : Nat) : Int :=
  if n % 4294967296 < 2147483648 then ((n % 4294967296 : Nat) : Int)
  else ((n % 4294967296 : Nat) : Int) - 4294967296

/-- The factor selected at line 195: fps == 30 ? 1001 : 1000. -/
def numeratorOf (fps : Nat) : Nat :=
  if fps = 30 then 1001 else 1000

/-- frames_to_timestamp_ms (ifo2mkv.cpp lines 193-197).
The product factor * num_frames is computed in 32-bit unsigned
arithmetic, divided by fps (or 1 when fps is 0) and cast to int32_t. -/
def frames_to_timestamp_ms (num_frames fps : Nat) : Int :=
  int32_of_uint32 (numeratorOf fps * num_frames % 4294967296 / (if fps = 0 then 1 else fps))

/-- One cell playback-time record: BCD-packed hour, minute, second bytes
and the combined frame/rate byte frame_u. -/
structure CellPlayback where
  hour : Nat
  minute : Nat
  second : Nat
  frame_u : Nat
deriving DecidableEq

/-- The frame rate decoded at line 234:
((dt->frame_u & 0xc0) >> 6) == 1 ? 25 : 30. -/
def frame_rate_of (frame_u : Nat) : Nat :=
  if (frame_u &&& 0xc0) >>> 6 = 1 then 25 else 30

/-- The frame field decoded at line 236:
((dt->frame_u & 0x30) >> 4) * 10 + (dt->frame_u & 0x0f). -/
def frame_field_of (frame_u : Nat) : Nat :=
  ((frame_u &&& 0x30) >>> 4) * 10 + (frame_u &&& 0x0f)

/-- The number of frames one cell contributes (lines 231-236), as an
unbounded natural number: duration in seconds times the decoded rate of
that same cell, plus the decoded frame field. -/
def cellFramesPure (dt : CellPlayback) : Nat :=
  (from_bcd dt.hour * 60 * 60 + from_bcd dt.minute * 60 + from_bcd dt.second) * frame_rate_of dt.frame_u
    + frame_field_of dt.frame_u

/-- One iteration of the cell loop (lines 228-237). The state is the pair
(fps, cur_frames); both cur_frames additions are 32-bit unsigned. -/
def cellStep (s : Nat × Nat) (dt : CellPlayback) : Nat × Nat :=
  (frame_rate_of dt.frame_u,
   ((s.2 + (from_bcd dt.hour * 60 * 60 + from_bcd dt.minute * 60 + from_bcd dt.second) * frame_rate_of dt.frame_u)
       % 4294967296
     + frame_field_of dt.frame_u) % 4294967296)

/-- One chapter marker: the (pgcn, pgn) pair from vts_ptt_srpt. -/
structure PTT where
  pgcn : Nat
  pgn : Nat

/-- One program chain: its program-to-cell map and its cell playback
table. Indexing is total, mirroring the unvalidated (trusted) table
lookups of the source. -/
structure PGC where
  program_map : Int → Nat
  cell_playback : Int → CellPlayback

/-- The navigation tables that get_chapters_for_title consumes for one
title: the marker array vts_ptt_srpt->title[ttn-1].ptt and the program
chain table vts->vts_pgcit->pgci_srp. -/
structure VTS where
  ptt : Int → PTT
  pgc : Int → PGC

/-- The inclusive index range of the C for loop from start_cell to
end_cell (line 228); empty when end_cell < start_cell. -/
def cellIdxs (start_cell end_cell : Int) : List Int :=
  (List.range (end_cell + 1 - start_cell).toNat).map (fun i => start_cell + (i : Int))

/-- start_cell computed at lines 218-221: the program-map entry of
marker ch, in marker ch program chain, minus one. -/
def startCell (vts : VTS) (ch : Int) : Int :=
  ((vts.pgc (((vts.ptt ch).pgcn : Int) - 1)).program_map (((vts.ptt ch).pgn : Int) - 1) : Int) - 1

/-- The program chain of marker ch+1 (lines 222-224); the cell loop
reads its cell_playback table. -/
def endPGC (vts : VTS) (ch : Int) : PGC :=
  vts.pgc (((vts.ptt (ch + 1)).pgcn : Int) - 1)

/-- end_cell computed at line 225: the program-map entry of marker ch+1,
in marker ch+1 program chain, minus two. -/
def endCell (vts : VTS) (ch : Int) : Int :=
  ((endPGC vts ch).program_map (((vts.ptt (ch + 1)).pgn : Int) - 1) : Int) - 2

/-- The cells the chapter loop iteration for marker pair (ch, ch+1)
visits, in order. -/
def chapterCells (vts : VTS) (ch : Int) : List CellPlayback :=
  (cellIdxs (startCell vts ch) (endCell vts ch)).map (endPGC vts ch).cell_playback

/-- The per-chapter frame subtotal as an unbounded natural number. -/
def chapterFramesPure (vts : VTS) (ch : Int) : Nat :=
  ((chapterCells vts ch).map cellFramesPure).sum

/-- One iteration of the chapter loop (lines 216-241). The state is
(fps, overall_frames); returns the new state and the emitted timestamp. -/
def chapterStep (vts : VTS) (ch : Int) (s : Nat × Nat) : (Nat × Nat) × Int :=
  let fc := (chapterCells vts ch).foldl cellStep (s.1, 0)
  let overall := (s.2 + fc.2) % 4294967296
  ((fc.1, overall), frames_to_timestamp_ms overall fc.1)

/-- The chapter loop run cnt times starting at marker index ch, emitting
one timestamp per iteration. -/
def walkFrom (vts : VTS) : Nat → Nat → Nat × Nat → List Int
  | _, 0, _ => []
  | ch, cnt + 1, s =>
    (chapterStep vts (ch : Int) s).2 :: walkFrom vts (ch + 1) cnt (chapterStep vts (ch : Int) s).1

/-- get_chapters_for_title (lines 204-244) restricted to the timestamps
it hands to the writer: the initial chapter at 0 (line 209), then one
timestamp per marker pair, the loop running nr_of_ptts - 1 times with
overall_frames and fps starting at 0. -/
def get_chapters_for_title (vts : VTS) (nr_of_ptts : Nat) : List Int :=
  0 :: walkFrom vts 0 (nr_of_ptts - 1) (0, 0)

/-- The writer calls get_chapters_for_title makes, in order. -/
inductive WriterEvent where
  | titleStart : WriterEvent
  | chapterStart : Int → WriterEvent
  | titleEnd : WriterEvent
deriving DecidableEq

/-- The full writer call sequence of get_chapters_for_title:
on_title_start, on_chapter_start(0), the loop timestamps, on_title_end. -/
def get_chapters_events (vts : VTS) (nr_of_ptts : Nat) : List WriterEvent :=
  WriterEvent.titleStart :: (get_chapters_for_title vts nr_of_ptts).map WriterEvent.chapterStart
    ++ [WriterEvent.titleEnd]

/-- The sum of all per-chapter frame subtotals for cnt chapter-loop
iterations starting at marker index ch. -/
def totalFramesPure (vts : VTS) : Nat → Nat → Nat
  | _, 0 => 0
  | ch, cnt + 1 => chapterFramesPure vts (ch : Int) + totalFramesPure vts (ch + 1) cnt

/-- Every cell reachable through the pgc table decodes to frame rate r. -/
def ConstantRate (vts : VTS) (r : Nat) : Prop :=
  ∀ p c, frame_rate_of ((vts.pgc p).cell_playback c).frame_u = r

/-- Outcome of the title-selection stage of main (lines 285-302): exit
code, the RangeError diagnostic pair (requested, available) when
emitted, and the list of processed title indices when a document is
emitted at all. -/
structure MainOutcome where
  exitCode : Nat
  diagnostic : Option (Nat × Nat)
  output : Option (List Nat)
deriving DecidableEq

/-- Title selection in main (lines 285-302): selector 0 processes all
titles 0..n-1; a non-zero selector is bounds-checked with
title >= nr_of_srpts and, when valid, processes the single title at
array index title; on the bounds failure no writer is constructed. -/
def runMain (title nr_of_srpts : Nat) : MainOutcome :=
  if title = 0 then ⟨0, none, some (List.range nr_of_srpts)⟩
  else if nr_of_srpts ≤ title then ⟨1, some (title, nr_of_srpts), none⟩
  else ⟨0, none, some [title]⟩

/-- Concrete cell: 3 seconds plus 10 frames at rate 30 (100 frames). -/
def c4cell1 : CellPlayback := ⟨0, 0, 0x03, 0xd0⟩

/-- Concrete cell: 6 seconds plus 20 frames at rate 30 (200 frames). -/
def c4cell2 : CellPlayback := ⟨0, 0, 0x06, 0xe0⟩

/-- Concrete cell: 1 second plus 20 frames at rate 30 (50 frames). -/
def c4cell3 : CellPlayback := ⟨0, 0, 0x01, 0xe0⟩

/-- Concrete program chain holding the three cells above as cells 0-2. -/
def c4pgc : PGC :=
  ⟨fun i => if i = 0 then 1 else 4,
   fun c => if c = 0 then c4cell1 else if c = 1 then c4cell2 else c4cell3⟩

/-- Concrete navigation tables: one title, two markers, one chapter
spanning cells 0-2 of the single program chain. -/
def c4vts : VTS :=
  ⟨fun ch => if ch = 0 then ⟨1, 1⟩ else ⟨1, 2⟩, fun _ => c4pgc⟩

/-- Concrete cell at rate 25: 2 seconds, 0 frames (50 frames). -/
def c7cellA : CellPlayback := ⟨0, 0, 0x02, 0x40⟩

/-- Concrete cell at rate 30: 0 seconds, 1 frame (1 frame). -/
def c7cellB : CellPlayback := ⟨0, 0, 0, 0xc1⟩

/-- Program chain with two rate-25 cells as cells 0-1. -/
def c7pgcA : PGC := ⟨fun i => if i = 0 then 1 else 3, fun _ => c7cellA⟩

/-- Program chain whose cells are all the one-frame rate-30 cell. -/
def c7pgcB : PGC := ⟨fun _ => 4, fun _ => c7cellB⟩

/-- Navigation tables mixing a rate-25 chapter with a rate-30 chapter:
three markers, chapter one covers cells 0-1 of the first program chain
(100 frames at 25 fps), chapter two covers cell 2 of the second program
chain (1 frame at 30 fps). -/
def c7vts : VTS :=
  ⟨fun ch => if ch = 0 then ⟨1, 1⟩ else if ch = 1 then ⟨1, 2⟩ else ⟨2, 1⟩,
   fun p => if p = 0 then c7pgcA else c7pgcB⟩

/-- Constant-rate cell: 1 second plus 10 frames at rate 30 (40 frames). -/
def w7cell : CellPlayback := ⟨0, 0, 0x01, 0xd0⟩

/-- Program chain all of whose cells are w7cell. -/
def w7pgc : PGC := ⟨fun i => if i = 0 then 1 else 3, fun _ => w7cell⟩

/-- Constant-rate navigation tables: two markers, one chapter covering
cells 0-1, every reachable cell being w7cell at rate 30. -/
def w7vts : VTS :=
  ⟨fun ch => if ch = 0 then ⟨1, 1⟩ else ⟨1, 2⟩, fun _ => w7pgc⟩

/-- Cell used in the C2 witness: rate bits 01, so 25 fps. -/
def c2cell : CellPlayback := ⟨0, 0, 0, 0x40⟩

/-- The running cur_frames of the cell loop equals the plain sum of the
per-cell frame contributions, reduced modulo 2^32. -/
theorem foldl_cellStep_snd (cells : List CellPlayback) :
    ∀ s : Nat × Nat, s.2 < 4294967296 →
      (cells.foldl cellStep s).2 = (s.2 + (cells.map cellFramesPure).sum) % 4294967296 := by
  induction cells with
  | nil =>
    intro s h
    simpa using (Nat.mod_eq_of_lt h).symm
  | cons dt rest ih =>
    intro s h
    rw [List.foldl_cons, ih (cellStep s dt) (Nat.mod_lt _ (by norm_num))]
    show ((((s.2 + _) % 4294967296 + _) % 4294967296) + _) % 4294967296 = _
    simp only [cellFramesPure, List.map_cons, List.sum_cons]
    omega

/-- After processing a non-empty cell list the captured fps is the rate
decoded from the last cell (last write wins). -/
theorem foldl_cellStep_fst (cells : List CellPlayback) :
    ∀ (s : Nat × Nat) (dt : CellPlayback), cells.getLast? = some dt →
      (cells.foldl cellStep s).1 = frame_rate_of dt.frame_u := by
  induction cells with
  | nil => intro s dt h; simp at h
  | cons x rest ih =>
    intro s dt h
    cases rest with
    | nil =>
      simp only [List.getLast?_singleton, Option.some.injEq] at h
      subst h
      rfl
    | cons y r =>
      rw [List.getLast?_cons_cons] at h
      rw [List.foldl_cons]
      exact ih _ _ h

/-- When every cell of a non-empty list decodes to rate r, the fold
captures r. -/
theorem foldl_cellStep_fst_const (cells : List CellPlayback) (s : Nat × Nat) (r : Nat)
    (hne : cells ≠ []) (hall : ∀ dt ∈ cells, frame_rate_of dt.frame_u = r) :
    (cells.foldl cellStep s).1 = r := by
  cases hl : cells.getLast? with
  | none => exact absurd (List.getLast?_eq_none_iff.1 hl) hne
  | some dt =>
    obtain ⟨hne', heq⟩ := List.mem_getLast?_eq_getLast (Option.mem_def.mpr hl)
    rw [foldl_cellStep_fst cells s dt hl]
    exact hall dt (by rw [heq]; exact List.getLast_mem hne')

/-- Every cell the chapter loop visits comes from the pgc table, so a
ConstantRate table gives every visited cell rate r. -/
theorem chapterCells_rate (vts : VTS) (r : Nat) (hrate : ConstantRate vts r) (ch : Int) :
    ∀ dt ∈ chapterCells vts ch, frame_rate_of dt.frame_u = r := by
  intro dt hdt
  rcases List.mem_map.1 hdt with ⟨i, _, rfl⟩
  exact hrate _ i

/-- Evaluation of frames_to_timestamp_ms at an admissible rate when the
32-bit product does not overflow: plain truncating division, and the
int32_t cast is the identity because the quotient is under 2^31. -/
theorem int32_of_uint32_small (n : Nat) (h : n < 2147483648) : int32_of_uint32 n = (n : Int) := by
  have h2 : n % 4294967296 = n := Nat.mod_eq_of_lt (by omega)
  simp only [int32_of_uint32, h2]
  rw [if_pos h]

theorem ftm_eval (n r : Nat) (hr : r = 25 ∨ r = 30) (h : numeratorOf r * n < 4294967296) :
    frames_to_timestamp_ms n r = ((numeratorOf r * n / r : Nat) : Int) := by
  rcases hr with h' | h' <;> subst h'
  · have e1 : numeratorOf 25 = 1000 := by simp [numeratorOf]
    have e2 : (if (25 : Nat) = 0 then 1 else 25) = 25 := by norm_num
    rw [e1] at h
    simp only [frames_to_timestamp_ms, e1, e2]
    rw [Nat.mod_eq_of_lt h]
    exact int32_of_uint32_small _ (by omega)
  · have e1 : numeratorOf 30 = 1001 := by simp [numeratorOf]
    have e2 : (if (30 : Nat) = 0 then 1 else 30) = 30 := by norm_num
    rw [e1] at h
    simp only [frames_to_timestamp_ms, e1, e2]
    rw [Nat.mod_eq_of_lt h]
    exact int32_of_uint32_small _ (by omega)

/-- frames_to_timestamp_ms of zero frames is zero at every rate. -/
theorem ftm_zero (fps : Nat) : frames_to_timestamp_ms 0 fps = 0 := by
  simp [frames_to_timestamp_ms, int32_of_uint32]

/-- Monotonicity of the converter at a fixed admissible rate in the
overflow-free region. -/
theorem ftm_le_ftm (r a b : Nat) (hr : r = 25 ∨ r = 30) (hab : a ≤ b)
    (hb : 1001 * b < 4294967296) :
    frames_to_timestamp_ms a r ≤ frames_to_timestamp_ms b r := by
  have hnb : numeratorOf r * b < 4294967296 := by
    rcases hr with h' | h' <;> subst h' <;> simp only [numeratorOf] <;> norm_num <;> omega
  have hna : numeratorOf r * a < 4294967296 :=
    lt_of_le_of_lt (Nat.mul_le_mul_left _ hab) hnb
  rw [ftm_eval a r hr hna, ftm_eval b r hr hnb]
  exact_mod_cast Nat.div_le_div_right (Nat.mul_le_mul_left _ hab)

/-- Non-negativity of the converter at an admissible rate in the
overflow-free region. -/
theorem ftm_nonneg (r a : Nat) (hr : r = 25 ∨ r = 30) (ha : 1001 * a < 4294967296) :
    0 ≤ frames_to_timestamp_ms a r := by
  have hna : numeratorOf r * a < 4294967296 := by
    rcases hr with h' | h' <;> subst h' <;> simp only [numeratorOf] <;> norm_num <;> omega
  rw [ftm_eval a r hr hna]
  exact Int.natCast_nonneg _

/-- Characterization of one chapter-loop iteration in the overflow-free
region: the new overall counter is the old one plus the per-chapter
subtotal, and both the captured fps and the emitted timestamp follow. -/
theorem chapterStep_eq (vts : VTS) (ch : Int) (fps F : Nat)
    (hF : F + chapterFramesPure vts ch < 4294967296) :
    chapterStep vts ch (fps, F) =
      ((((chapterCells vts ch).foldl cellStep (fps, 0)).1, F + chapterFramesPure vts ch),
       frames_to_timestamp_ms (F + chapterFramesPure vts ch)
         (((chapterCells vts ch).foldl cellStep (fps, 0)).1)) := by
  have h2 := foldl_cellStep_snd (chapterCells vts ch) (fps, 0) (by norm_num)
  simp only [chapterStep, h2]
  have h3 : (F + (0 + (List.map cellFramesPure (chapterCells vts ch)).sum) % 4294967296)
        % 4294967296 = F + chapterFramesPure vts ch := by
    simp only [chapterFramesPure] at hF ⊢
    omega
  rw [h3]

/-- Walk invariant: starting from a state whose fps is either still the
initial 0 (with zero accumulated frames) or the common rate r, a
constant-rate table with no 32-bit overflow yields a non-decreasing
timestamp sequence, including the timestamp of the entry state. -/
theorem walk_chain (vts : VTS) (r : Nat) (hr : r = 25 ∨ r = 30) (hrate : ConstantRate vts r) :
    ∀ (cnt ch fps F : Nat),
      (fps = 0 ∧ F = 0 ∨ fps = r) →
      1001 * (F + totalFramesPure vts ch cnt) < 4294967296 →
      List.Chain' (· ≤ ·) (frames_to_timestamp_ms F fps :: walkFrom vts ch cnt (fps, F)) := by
  intro cnt
  induction cnt with
  | zero =>
    intro ch fps F _ _
    simp [walkFrom]
  | succ k ih =>
    intro ch fps F hinv hov
    have hsplit : totalFramesPure vts ch (k + 1)
        = chapterFramesPure vts (ch : Int) + totalFramesPure vts (ch + 1) k := rfl
    set Sc := chapterFramesPure vts (ch : Int) with hSc
    set T := totalFramesPure vts (ch + 1) k with hT
    rw [hsplit] at hov
    have hFS : F + Sc < 4294967296 := by omega
    have hstep := chapterStep_eq vts (ch : Int) fps F hFS
    set fps' := ((chapterCells vts (ch : Int)).foldl cellStep (fps, 0)).1 with hfps'
    have hfpscase : (fps' = fps ∧ Sc = 0) ∨ fps' = r := by
      by_cases hc : chapterCells vts (ch : Int) = []
      · left
        constructor
        · rw [hfps', hc]
          rfl
        · rw [hSc]
          simp [chapterFramesPure, hc]
      · right
        rw [hfps']
        exact foldl_cellStep_fst_const _ _ r hc (chapterCells_rate vts r hrate _)
    have hinv' : (fps' = 0 ∧ F + Sc = 0 ∨ fps' = r) := by
      rcases hfpscase with ⟨hfe, hs0⟩ | hfr
      · rcases hinv with ⟨h1, h2⟩ | h1
        · left
          constructor
          · rw [hfe, h1]
          · omega
        · right
          rw [hfe, h1]
      · right
        exact hfr
    have hhead : frames_to_timestamp_ms F fps ≤ frames_to_timestamp_ms (F + Sc) fps' := by
      rcases hinv with ⟨hf0, hF0⟩ | hfr
      · have hL : frames_to_timestamp_ms F fps = 0 := by
          rw [hf0, hF0, ftm_zero]
        rw [hL]
        rcases hinv' with ⟨hf'0, hF'0⟩ | hf'r
        · have hR : frames_to_timestamp_ms (F + Sc) fps' = 0 := by
            rw [hF'0, ftm_zero]
          rw [hR]
        · rw [hf'r]
          exact ftm_nonneg r (F + Sc) hr (by omega)
      · have hf'r : fps' = r := by
          rcases hfpscase with ⟨hfe, _⟩ | h1
          · rw [hfe, hfr]
          · exact h1
        rw [hfr, hf'r]
        exact ftm_le_ftm r F (F + Sc) hr (Nat.le_add_right _ _) (by omega)
    have hwalk : walkFrom vts ch (k + 1) (fps, F)
        = (chapterStep vts (ch : Int) (fps, F)).2
          :: walkFrom vts (ch + 1) k (chapterStep vts (ch : Int) (fps, F)).1 := rfl
    rw [hwalk, hstep]
    dsimp only
    exact List.chain'_cons.2 ⟨hhead, ih (ch + 1) fps' (F + Sc) hinv' (by omega)⟩

/-- Claim C1 (amended): with a non-zero selector s, the program fails
with the RangeError diagnostic carrying both counts, exit code 1 and no
output document when s is at least the title count; otherwise it
processes exactly one title, namely the title at 0-based array index s
(the (s+1)-th title under 1-based counting, not the s-th). -/
theorem c1_amended_selector (s n : Nat) (hs : s ≠ 0) :
    (n ≤ s → runMain s n = ⟨1, some (s, n), none⟩)
    ∧ (s < n → runMain s n = ⟨0, none, some [s]⟩) := by
  constructor
  · intro h
    simp only [runMain, if_neg hs, if_pos h]
  · intro h
    have h2 : ¬ n ≤ s := by omega
    simp only [runMain, if_neg hs, if_neg h2]

/-- Claim C1 counterexample: selector 1 against 2 titles is accepted and
processes the title at index 1 (the second title), not the first title
as the 1-based reading of the claim requires. -/
theorem c1_counterexample :
    (1 : Nat) < 2 ∧ (runMain 1 2).output = some [1] ∧ (runMain 1 2).output ≠ some [0] := by
  decide

/-- Claim C1 witness: at selector 2 with 2 titles the amended theorem
yields the RangeError outcome. -/
theorem c1_witness : (2 : Nat) ≠ 0 ∧ runMain 2 2 = ⟨1, some (2, 2), none⟩ :=
  ⟨by decide, (c1_amended_selector 2 2 (by decide)).1 (le_refl 2)⟩

/-- Claim C2 (amended): the captured rate is 25 exactly when bits 7 and
6 of the combined byte are 01 (bit 6 set and bit 7 clear); every other
byte, including those with both bits set, gives 30; the rate is captured
from every processed cell with the last cell winning. -/
theorem c2_amended_rate (b : Nat) (hb : b < 256) (cells : List CellPlayback)
    (dt : CellPlayback) (hlast : cells.getLast? = some dt) (s : Nat × Nat) :
    (frame_rate_of b = 25 ↔ b &&& 0xc0 = 0x40)
    ∧ (frame_rate_of b = 30 ↔ b &&& 0xc0 ≠ 0x40)
    ∧ (cells.foldl cellStep s).1 = frame_rate_of dt.frame_u := by
  have key : ∀ x, x < 256 →
      (frame_rate_of x = 25 ↔ x &&& 0xc0 = 0x40) ∧ (frame_rate_of x = 30 ↔ x &&& 0xc0 ≠ 0x40) := by
    decide
  exact ⟨(key b hb).1, (key b hb).2, foldl_cellStep_fst cells s dt hlast⟩

/-- Claim C2 counterexample: byte 0xc0 has bit 6 set, yet the decoded
rate is 30, not the 25 the claim asserts for every byte with bit 6 set. -/
theorem c2_counterexample : (0xc0 : Nat) &&& 0x40 = 0x40 ∧ frame_rate_of 0xc0 = 30 := by
  decide

/-- Claim C2 witness: byte 0x40 and a singleton cell list. -/
theorem c2_witness :
    (0x40 : Nat) < 256 ∧ [c2cell].getLast? = some c2cell
    ∧ ((frame_rate_of 0x40 = 25 ↔ (0x40 : Nat) &&& 0xc0 = 0x40)
       ∧ (frame_rate_of 0x40 = 30 ↔ (0x40 : Nat) &&& 0xc0 ≠ 0x40)
       ∧ ([c2cell].foldl cellStep (0, 0)).1 = frame_rate_of c2cell.frame_u) :=
  ⟨by decide, by decide, c2_amended_rate 0x40 (by decide) [c2cell] c2cell (by decide) (0, 0)⟩

/-- Claim C3 (amended): the conversion satisfies convert(25, 25) = 1000,
convert(30, 30) = 1001 and convert(2997, 30) = 99999 (the spec value
99900 corresponds to factor 1000, but rate 30 selects factor 1001). -/
theorem c3_conversion_values :
    frames_to_timestamp_ms 25 25 = 1000 ∧ frames_to_timestamp_ms 30 30 = 1001
    ∧ frames_to_timestamp_ms 2997 30 = 99999 := by
  decide

/-- Claim C3 counterexample: convert(2997, 30) is not 99900. -/
theorem c3_counterexample : frames_to_timestamp_ms 2997 30 ≠ 99900 := by
  decide

/-- Claim C4 (amended): a chapter spanning 3 cells of 100, 200 and 50
frames at rate 30 accumulates a subtotal of 350 frames, and converting
that subtotal contributes 350 * 1001 / 30 = 11678 ms (truncating), not
11677. -/
theorem c4_multicell_chapter :
    (chapterCells c4vts 0).map cellFramesPure = [100, 200, 50]
    ∧ ((chapterCells c4vts 0).map fun dt => frame_rate_of dt.frame_u) = [30, 30, 30]
    ∧ chapterFramesPure c4vts 0 = 350
    ∧ get_chapters_for_title c4vts 2 = [0, 11678]
    ∧ frames_to_timestamp_ms 350 30 = 11678 := by
  decide

/-- Claim C4 counterexample: converting 350 frames at rate 30 does not
give 11677 ms. -/
theorem c4_counterexample : frames_to_timestamp_ms 350 30 ≠ 11677 := by
  decide

/-- Claim C5 (amended): for an admissible rate r and any frame count n
with numerator * n below 2^32 (no 32-bit overflow), the result is the
truncating division numerator * n / r, with rate 25 giving exactly
40 * n; for rate 0 the divisor is replaced by 1, so no division by zero
occurs. Without the overflow bound the equality fails. -/
theorem c5_amended_conversion (n r m : Nat) (hr : r = 25 ∨ r = 30)
    (hov : numeratorOf r * n < 4294967296) :
    frames_to_timestamp_ms n r = ((numeratorOf r * n / r : Nat) : Int)
    ∧ (r = 25 → frames_to_timestamp_ms n r = ((40 * n : Nat) : Int))
    ∧ frames_to_timestamp_ms m 0 = int32_of_uint32 (numeratorOf 0 * m % 4294967296 / 1) := by
  refine ⟨ftm_eval n r hr hov, ?_, rfl⟩
  intro h25
  subst h25
  rw [ftm_eval n 25 (Or.inl rfl) hov]
  congr 1
  have e1 : numeratorOf 25 = 1000 := by simp [numeratorOf]
  rw [e1]
  omega

/-- Claim C5 counterexample: at rate 25 and frame count 4294968 the
32-bit product wraps, so the result is 28 rather than 40 * 4294968. -/
theorem c5_counterexample :
    frames_to_timestamp_ms 4294968 25 = 28
    ∧ frames_to_timestamp_ms 4294968 25 ≠ ((40 * 4294968 : Nat) : Int) := by
  decide

/-- Claim C5 witness: rate 25, 100 frames, 4000 ms. -/
theorem c5_witness :
    ((25 : Nat) = 25 ∨ (25 : Nat) = 30) ∧ numeratorOf 25 * 100 < 4294967296
    ∧ frames_to_timestamp_ms 100 25 = ((numeratorOf 25 * 100 / 25 : Nat) : Int) :=
  ⟨Or.inl rfl, by decide, (c5_amended_conversion 100 25 7 (Or.inl rfl) (by decide)).1⟩

/-- Claim C6: for a marker pair (ch, ch+1) the walker resolves start
cell as the program-map entry of marker ch minus one and end cell as the
program-map entry of marker ch+1, in the marker ch+1 program chain,
minus two; it iterates that range inclusively, each cell contributing
(hour*3600 + minute*60 + second) * rate + frame_field frames (BCD
decoded) to the per-chapter subtotal, which is added to the cumulative
counter (exact addition in the overflow-free region). -/
theorem c6_cell_resolution (vts : VTS) (ch : Int) (fps F : Nat)
    (hov : F + chapterFramesPure vts ch < 4294967296) :
    (chapterStep vts ch (fps, F)).1.2 = F + chapterFramesPure vts ch
    ∧ chapterFramesPure vts ch = ((chapterCells vts ch).map cellFramesPure).sum
    ∧ startCell vts ch = ((vts.pgc (((vts.ptt ch).pgcn : Int) - 1)).program_map
        (((vts.ptt ch).pgn : Int) - 1) : Int) - 1
    ∧ endCell vts ch = ((vts.pgc (((vts.ptt (ch + 1)).pgcn : Int) - 1)).program_map
        (((vts.ptt (ch + 1)).pgn : Int) - 1) : Int) - 2
    ∧ chapterCells vts ch = (cellIdxs (startCell vts ch) (endCell vts ch)).map
        (endPGC vts ch).cell_playback := by
  refine ⟨?_, rfl, rfl, rfl, rfl⟩
  rw [chapterStep_eq vts ch fps F hov]

/-- Claim C6 witness: the three-cell chapter of c4vts from a fresh
state. -/
theorem c6_witness :
    0 + chapterFramesPure c4vts 0 < 4294967296
    ∧ (chapterStep c4vts 0 (0, 0)).1.2 = 0 + chapterFramesPure c4vts 0 :=
  ⟨by decide, (c6_cell_resolution c4vts 0 0 0 (by decide)).1⟩

/-- Claim C7 (amended): for every title all of whose reachable cells
decode to one common admissible frame rate and whose total frame count
stays below the 32-bit overflow threshold, the emitted timestamp
sequence is non-decreasing and its first element is 0; with mixed rates
the sequence can decrease, so the unconditional claim fails. -/
theorem c7_amended_monotonicity (vts : VTS) (n r : Nat) (hr : r = 25 ∨ r = 30)
    (hrate : ConstantRate vts r)
    (hov : 1001 * totalFramesPure vts 0 (n - 1) < 4294967296) :
    List.Chain' (· ≤ ·) (get_chapters_for_title vts n)
    ∧ (get_chapters_for_title vts n).head? = some 0 := by
  constructor
  · have h := walk_chain vts r hr hrate (n - 1) 0 0 0 (Or.inl ⟨rfl, rfl⟩) (by simpa using hov)
    rw [ftm_zero] at h
    exact h
  · rfl

/-- Claim C7 counterexample: the mixed-rate table c7vts produces the
timestamp sequence 0, 4000, 3370, which decreases. -/
theorem c7_counterexample :
    ¬ List.Chain' (· ≤ ·) (get_chapters_for_title c7vts 3)
    ∧ get_chapters_for_title c7vts 3 = [0, 4000, 3370] := by
  have h : get_chapters_for_title c7vts 3 = [0, 4000, 3370] := by decide
  refine ⟨?_, h⟩
  rw [h]
  intro hchain
  have hbad : (4000 : Int) ≤ 3370 := (List.chain'_cons.1 (List.chain'_cons.1 hchain).2).1
  norm_num at hbad

/-- Claim C7 witness: the constant rate-30 table w7vts with two
markers. -/
theorem c7_witness :
    ((30 : Nat) = 25 ∨ (30 : Nat) = 30) ∧ ConstantRate w7vts 30
    ∧ 1001 * totalFramesPure w7vts 0 (2 - 1) < 4294967296
    ∧ List.Chain' (· ≤ ·) (get_chapters_for_title w7vts 2)
    ∧ (get_chapters_for_title w7vts 2).head? = some 0 := by
  have hcell : ∀ (p c : Int), (w7vts.pgc p).cell_playback c = w7cell := fun p c => rfl
  have hr30 : frame_rate_of w7cell.frame_u = 30 := by decide
  have hrate : ConstantRate w7vts 30 := fun p c => by rw [hcell p c]; exact hr30
  exact ⟨Or.inr rfl, hrate, by decide,
    c7_amended_monotonicity w7vts 2 30 (Or.inr rfl) hrate (by decide)⟩

/-- Claim C8: a title with exactly one marker makes the walker emit one
chapter-start event at timestamp 0 and nothing else between the title
start and end events; the pairwise loop runs zero iterations. -/
theorem c8_single_marker (vts : VTS) :
    get_chapters_events vts 1
      = [WriterEvent.titleStart, WriterEvent.chapterStart 0, WriterEvent.titleEnd]
    ∧ walkFrom vts 0 (1 - 1) (0, 0) = [] :=
  ⟨rfl, rfl⟩

/-- Claim C9 (amended): for every byte the decoder totally returns
10 * high_nibble + low_nibble, which is at most 165; the listed examples
hold; a byte with a nibble above 9 can land outside 0-99 (0xff gives
165) but can also stay inside it (0x0a gives 10), so the unqualified
outside-0-99 clause fails. -/
theorem c9_amended_bcd (b : Nat) (hb : b < 256) :
    from_bcd b = 10 * (b / 16) + b % 16
    ∧ from_bcd b ≤ 165
    ∧ from_bcd 0x23 = 23 ∧ from_bcd 0x00 = 0 ∧ from_bcd 0x99 = 99
    ∧ from_bcd 0xff = 165 ∧ 99 < from_bcd 0xff
    ∧ from_bcd 0x0a = 10 := by
  have key : ∀ x, x < 256 → from_bcd x = 10 * (x / 16) + x % 16 ∧ from_bcd x ≤ 165 := by
    decide
  exact ⟨(key b hb).1, (key b hb).2, by decide, by decide, by decide, by decide, by decide,
    by decide⟩

/-- Claim C9 counterexample: 0x0a has a low nibble above 9, yet its
decoded value 10 lies inside 0-99. -/
theorem c9_counterexample :
    9 < (0x0a : Nat) &&& 0x0f ∧ from_bcd 0x0a = 10 ∧ from_bcd 0x0a ≤ 99 := by
  decide

/-- Claim C9 witness: byte 0xab. -/
theorem c9_witness :
    (0xab : Nat) < 256 ∧ from_bcd 0xab = 10 * (0xab / 16) + 0xab % 16 :=
  ⟨by decide, (c9_amended_bcd 0xab (by decide)).1⟩

/-- Claim C10 (amended): the converter computes the product in 32-bit
unsigned arithmetic and reinterprets the quotient as int32_t; for every
frame count above floor((2^32 - 1) / 1001) at rate 30 the result wraps
(it differs from the unwrapped 1001 * n / 30), but it is never negative
at rate 30 because division by 30 keeps the quotient below 2^31. -/
theorem c10_amended_wraparound (n r : Nat) (hn : 4290676 < n) :
    frames_to_timestamp_ms n r
      = int32_of_uint32 (numeratorOf r * n % 4294967296 / (if r = 0 then 1 else r))
    ∧ frames_to_timestamp_ms n 30 ≠ ((1001 * n / 30 : Nat) : Int)
    ∧ 0 ≤ frames_to_timestamp_ms n 30 := by
  have e1 : numeratorOf 30 = 1001 := by simp [numeratorOf]
  have e2 : (if (30 : Nat) = 0 then 1 else 30) = 30 := by norm_num
  have hq : 1001 * n % 4294967296 / 30 < 2147483648 := by omega
  have hval : frames_to_timestamp_ms n 30 = ((1001 * n % 4294967296 / 30 : Nat) : Int) := by
    simp only [frames_to_timestamp_ms, e1, e2]
    exact int32_of_uint32_small _ hq
  refine ⟨rfl, ?_, ?_⟩
  · rw [hval]
    intro hcontra
    have heq : 1001 * n % 4294967296 / 30 = 1001 * n / 30 := by exact_mod_cast hcontra
    omega
  · rw [hval]
    exact Int.natCast_nonneg _

/-- Claim C10 counterexample: at the wrapped frame count 4290677 and
rate 30 the result is 12, which is not negative. -/
theorem c10_counterexample :
    frames_to_timestamp_ms 4290677 30 = 12 ∧ ¬ frames_to_timestamp_ms 4290677 30 < 0 := by
  decide

/-- Claim C10 witness: frame count 4290677 at rate 30. -/
theorem c10_witness :
    4290676 < 4290677
    ∧ frames_to_timestamp_ms 4290677 30 ≠ ((1001 * 4290677 / 30 : Nat) : Int)
    ∧ 0 ≤ frames_to_timestamp_ms 4290677 30 :=
  ⟨by decide, (c10_amended_wraparound 4290677 30 (by decide)).2.1,
   (c10_amended_wraparound 4290677 30 (by decide)).2.2⟩

end Ifo2Mkv
